import Mathlib

/-!
Verification of the pty screen mirror engine (Programs/pty_screen.c).

The shallow embedding models the shared-memory mirror of a terminal screen:
a fixed header followed by a row-major grid of character cells.  Pointers
into the cell array are embedded as cell indices (pointer minus the grid
start), so the cell at (row, column) has index row * screenWidth + column.
The external curses rendering library is the collaborator that owns the
true terminal state; operations that sample one cell from it (in_wch) take
the sampled value as an explicit parameter, and the single-character write
path (ptyAddCharacter) is additionally verified against a concrete model
of the addch/in_wch behaviour of the library.

Helpers of pty_shared.c (ptyGetCharacter, ptyGetScreenEnd, the segment
find/attach primitives) are not part of the analysed sources; they are
modelled from the specification and marked as such in their doc comments.
-/

namespace Pty

/-- One mirrored screen cell (PtyCharacter of pty_shared.h): a character
code point and six independent attribute booleans. -/
structure PtyCharacter where
  text : Nat
  blink : Bool
  bold : Bool
  underline : Bool
  reverse : Bool
  standout : Bool
  dim : Bool
deriving DecidableEq, Repr

/-- The C initializer of initializeCharacters: a space with every
attribute bit clear (the designated initializer zero-fills the rest). -/
def blankCharacter : PtyCharacter :=
  { text := 32, blink := false, bold := false, underline := false,
    reverse := false, standout := false, dim := false }

/-- The fixed-layout header at the start of the shared segment
(PtyHeader of pty_shared.h). -/
structure PtyHeader where
  headerSize : Nat
  segmentSize : Nat
  characterSize : Nat
  charactersOffset : Nat
  screenHeight : Nat
  screenWidth : Nat
  cursorRow : Nat
  cursorColumn : Nat
deriving DecidableEq, Repr

/-- The complex character an in_wch call returns (cchar_t): a code point
and the attribute bits the mirror tests (A_BLINK, A_BOLD, A_UNDERLINE,
A_REVERSE, A_STANDOUT, A_DIM), each embedded as the boolean outcome of
its mask test. -/
structure Wch where
  ch : Nat
  attrBlink : Bool
  attrBold : Bool
  attrUnderline : Bool
  attrReverse : Bool
  attrStandout : Bool
  attrDim : Bool
deriving DecidableEq, Repr

/-- The field-by-field store of setCharacter: text from chars[0] of the
read wch, each attribute bit from its mask test. -/
def wchCharacter (w : Wch) : PtyCharacter :=
  { text := w.ch, blink := w.attrBlink, bold := w.attrBold,
    underline := w.attrUnderline, reverse := w.attrReverse,
    standout := w.attrStandout, dim := w.attrDim }

/-- The mapped shared segment: its header and the character grid.  The
grid is embedded as a total function from cell index to cell; indices
below screenHeight * screenWidth are the live grid, the rest never
matter. -/
structure Segment where
  header : PtyHeader
  cells : Nat → PtyCharacter

/-- Modelled from the spec: ptyGetCharacter of pty_shared.c (not among
the analysed sources) returns, per section 4.2, the memory location of
the cell at (row, column); as a cell index that is
row * screenWidth + column. -/
def ptyGetCharacterIndex (hdr : PtyHeader) (row column : Nat) : Nat :=
  row * hdr.screenWidth + column

/-- Modelled from the spec: the optional boundary out-parameter of
ptyGetCharacter of pty_shared.c (not among the analysed sources), the
shift/propagation boundary of the edit operators.  Sections 4.4 and 8 fix
it as one past the end of the addressed row: character shifts are clamped
so they never write past the end of the row, and clear-to-end-of-line
propagates across the remainder of the row only. -/
def ptyGetRowEnd (hdr : PtyHeader) (row : Nat) : Nat :=
  row * hdr.screenWidth + hdr.screenWidth

/-- Modelled from the spec: ptyGetScreenEnd of pty_shared.c (not among
the analysed sources), one past the last cell of the grid in row-major
order (section 8: through the last cell of the grid). -/
def ptyGetScreenEndIndex (hdr : PtyHeader) : Nat :=
  hdr.screenHeight * hdr.screenWidth

/-- setCharacters of pty_screen.c: fill [lo, hi) with one cell value. -/
def setCells (g : Nat → PtyCharacter) (lo hi : Nat) (c : PtyCharacter) :
    Nat → PtyCharacter :=
  fun i => if lo ≤ i ∧ i < hi then c else g i

/-- moveCharacters of pty_screen.c: memmove of count cells from src to
dst (memmove copies as if through a temporary, so every destination cell
receives the original source contents). -/
def moveCells (g : Nat → PtyCharacter) (dst src count : Nat) :
    Nat → PtyCharacter :=
  fun i => if dst ≤ i ∧ i < dst + count then g (src + (i - dst)) else g i

/-- propagateCharacter of pty_screen.c: setCharacters(from+1, to, from),
replicating the cell at src over (src, hi). -/
def propagateCells (g : Nat → PtyCharacter) (src hi : Nat) :
    Nat → PtyCharacter :=
  setCells g (src + 1) hi (g src)

/-- initializeCharacters of pty_screen.c: fill [lo, hi) with the blank
initializer. -/
def initChars (g : Nat → PtyCharacter) (lo hi : Nat) : Nat → PtyCharacter :=
  setCells g lo hi blankCharacter

/-- ptySetCursorPosition of pty_screen.c restricted to the segment: the
curses move() call touches only the rendering library; the header records
the same coordinates. -/
def ptySetCursorPosition (s : Segment) (row column : Nat) : Segment :=
  { s with header := { s.header with cursorRow := row, cursorColumn := column } }

/-- setCharacter of pty_screen.c: if (row, column) differs from the
cursor of the header, move there, read the cell from the rendering
library (in_wch, the value being the parameter w), move back; then store
the read character and attribute bits into the grid cell at
(row, column). -/
def setCharacter (w : Wch) (s : Segment) (row column : Nat) : Segment :=
  let oldRow := s.header.cursorRow
  let oldColumn := s.header.cursorColumn
  let s1 :=
    if row = oldRow ∧ column = oldColumn then s
    else ptySetCursorPosition (ptySetCursorPosition s row column) oldRow oldColumn
  let idx := ptyGetCharacterIndex s1.header row column
  { s1 with cells := fun i => if i = idx then wchCharacter w else s1.cells i }

/-- setCurrentCharacter of pty_screen.c: sample at the cursor recorded in
the header. -/
def setCurrentCharacter (w : Wch) (s : Segment) : Segment :=
  setCharacter w s s.header.cursorRow s.header.cursorColumn

/-- ptyClearToEndOfLine of pty_screen.c: clrtoeol() touches only the
rendering library; then the cell at the cursor is sampled and propagated
to the boundary returned by the addressing helper (the row end). -/
def ptyClearToEndOfLine (w : Wch) (s : Segment) : Segment :=
  let hi := ptyGetRowEnd s.header s.header.cursorRow
  let srcIdx := ptyGetCharacterIndex s.header s.header.cursorRow s.header.cursorColumn
  let s1 := setCurrentCharacter w s
  { s1 with cells := propagateCells s1.cells srcIdx hi }

/-- ptyClearToEndOfScreen of pty_screen.c: clrtobot() touches only the
rendering library; then the cell at the cursor is sampled and propagated
through the screen end. -/
def ptyClearToEndOfScreen (w : Wch) (s : Segment) : Segment :=
  let hi := ptyGetScreenEndIndex s.header
  let srcIdx := ptyGetCharacterIndex s.header s.header.cursorRow s.header.cursorColumn
  let s1 := setCurrentCharacter w s
  { s1 with cells := propagateCells s1.cells srcIdx hi }

/-- ptyInsertCharacters of pty_screen.c: shift the cells between the
cursor and the boundary rightward by count (destination clamped at the
boundary), ask the rendering library to insert count blanks (insch, which
touches only the library), sample the cell now at the cursor, and
propagate it over the inserted range from the cursor to the clamp. -/
def ptyInsertCharacters (w : Wch) (count : Nat) (s : Segment) : Segment :=
  let fromIdx := ptyGetCharacterIndex s.header s.header.cursorRow s.header.cursorColumn
  let rowEnd := ptyGetRowEnd s.header s.header.cursorRow
  let toIdx := min (fromIdx + count) rowEnd
  let s1 := { s with cells := moveCells s.cells toIdx fromIdx (rowEnd - toIdx) }
  let s2 := setCurrentCharacter w s1
  { s2 with cells := propagateCells s2.cells fromIdx toIdx }

/-- The while (counter-- > 0) primitiveCall() loops of ptyInsertLines,
ptyDeleteLines and ptyDeleteCharacters: the result counts how many times
the rendering-library primitive is invoked (the condition reads counter
before decrementing, so a zero count makes no call). -/
def callLoop : Nat → Nat
  | 0 => 0
  | Nat.succ counter => callLoop counter + 1

/-- ptyInsertLines of pty_screen.c: invoke insertln() of the rendering
library count times; the segment is never touched.  The second component
is the number of insertln calls. -/
def ptyInsertLines (s : Segment) (count : Nat) : Segment × Nat :=
  (s, callLoop count)

/-- ptyDeleteLines of pty_screen.c: invoke deleteln() count times; the
segment is never touched.  The second component counts the calls. -/
def ptyDeleteLines (s : Segment) (count : Nat) : Segment × Nat :=
  (s, callLoop count)

/-- ptyDeleteCharacters of pty_screen.c: invoke delch() count times; the
segment is never touched.  The second component counts the calls. -/
def ptyDeleteCharacters (s : Segment) (count : Nat) : Segment × Nat :=
  (s, callLoop count)

/-- Wraparound modulus of C unsigned int arithmetic. -/
def uintMod : Nat := 4294967296

/-- Unsigned 32-bit addition. -/
def uAdd32 (a b : Nat) : Nat := (a + b) % uintMod

/-- Unsigned 32-bit subtraction. -/
def uSub32 (a b : Nat) : Nat := (a % uintMod + (uintMod - b % uintMod)) % uintMod

/-- Conversion of an unsigned 32-bit value to a signed int: the
two's-complement reinterpretation performed by the int-typed delta of
ptyMoveCursorUp and ptyMoveCursorDown. -/
def toSigned32 (n : Nat) : Int :=
  if n % uintMod < 2147483648 then (n % uintMod : Int)
  else (n % uintMod : Int) - (uintMod : Int)

/-- The process-local mirror state of the writer: the mapped segment plus
the scroll region globals of pty_screen.c. -/
structure MirrorState where
  seg : Segment
  scrollRegionTop : Nat
  scrollRegionBottom : Nat

/-- isWithinScrollRegion of pty_screen.c. -/
def isWithinScrollRegion (st : MirrorState) (row : Nat) : Bool :=
  if row < st.scrollRegionTop then false
  else if st.scrollRegionBottom < row then false
  else true

/-- ptySetCursorRow of pty_screen.c lifted to the mirror state. -/
def ptySetCursorRow (st : MirrorState) (row : Nat) : MirrorState :=
  { st with seg := ptySetCursorPosition st.seg row st.seg.header.cursorColumn }

/-- ptySetCursorColumn of pty_screen.c lifted to the mirror state. -/
def ptySetCursorColumn (st : MirrorState) (column : Nat) : MirrorState :=
  { st with seg := ptySetCursorPosition st.seg st.seg.header.cursorRow column }

/-- ptySetScrollRegion of pty_screen.c: record the region and apply it to
the rendering library (setscrreg touches only the library). -/
def ptySetScrollRegion (st : MirrorState) (top bottom : Nat) : MirrorState :=
  { st with scrollRegionTop := top, scrollRegionBottom := bottom }

/-- ptyMoveCursorUp of pty_screen.c.  Besides the new state it returns
the log of scrollLines (curses scrl) invocations with their argument, and
the log of ptySetCursorRow invocations (the header row rewrites). -/
def ptyMoveCursorUp (amount : Nat) (st : MirrorState) :
    MirrorState × List Int × List Nat :=
  let oldRow := st.seg.header.cursorRow
  let newRow0 := uSub32 oldRow amount
  let clamped : Nat × List Int :=
    if isWithinScrollRegion st oldRow then
      let delta := toSigned32 (uSub32 newRow0 st.scrollRegionTop)
      if delta < 0 then (st.scrollRegionTop, [delta]) else (newRow0, [])
    else (newRow0, [])
  if clamped.1 ≠ oldRow then (ptySetCursorRow st clamped.1, clamped.2, [clamped.1])
  else (st, clamped.2, [])

/-- ptyMoveCursorDown of pty_screen.c, with the same instrumentation as
ptyMoveCursorUp. -/
def ptyMoveCursorDown (amount : Nat) (st : MirrorState) :
    MirrorState × List Int × List Nat :=
  let oldRow := st.seg.header.cursorRow
  let newRow0 := uAdd32 oldRow amount
  let clamped : Nat × List Int :=
    if isWithinScrollRegion st oldRow then
      let delta := toSigned32 (uSub32 newRow0 st.scrollRegionBottom)
      if 0 < delta then (st.scrollRegionBottom, [delta]) else (newRow0, [])
    else (newRow0, [])
  if clamped.1 ≠ oldRow then (ptySetCursorRow st clamped.1, clamped.2, [clamped.1])
  else (st, clamped.2, [])

/-- ptyMoveCursorLeft of pty_screen.c. -/
def ptyMoveCursorLeft (amount : Nat) (st : MirrorState) : MirrorState :=
  ptySetCursorColumn st (uSub32 st.seg.header.cursorColumn amount)

/-- ptyMoveCursorRight of pty_screen.c. -/
def ptyMoveCursorRight (amount : Nat) (st : MirrorState) : MirrorState :=
  ptySetCursorColumn st (uAdd32 st.seg.header.cursorColumn amount)

/-- saveCursorPosition of pty_screen.c: record the rendering-library
cursor (getcury/getcurx) in the header. -/
def saveCursorPosition (s : Segment) (termRow termColumn : Nat) : Segment :=
  { s with header := { s.header with cursorRow := termRow, cursorColumn := termColumn } }

/-- ptyAddCharacter of pty_screen.c at the segment level: remember the
cursor, let the rendering library draw (addch) — advancing its cursor to
(advRow, advColumn) — record that advanced cursor in the header, then
sample the cell at the remembered pre-advance position (the in_wch value
being w) and store it. -/
def ptyAddCharacterSeg (advRow advColumn : Nat) (w : Wch) (s : Segment) : Segment :=
  let row := s.header.cursorRow
  let column := s.header.cursorColumn
  let s1 := saveCursorPosition s advRow advColumn
  setCharacter w s1 row column

/-- The environment of a ptyBeginScreen call: outcomes of the external
steps (initscr, the find/create/attach primitives) and the observable
terminal state.  initialHeader/initialCells are whatever bytes the
freshly attached segment happens to hold. -/
structure ShmEnv where
  initscrOk : Bool
  existingSegment : Bool
  shmgetOk : Bool
  attachOk : Bool
  lines : Nat
  cols : Nat
  termRow : Nat
  termColumn : Nat
  sizeofHeader : Nat
  sizeofCharacter : Nat
  initialHeader : PtyHeader
  initialCells : Nat → PtyCharacter

/-- Resource events of the acquisition path: removal of a pre-existing
segment (shmctl IPC_RMID on the found identifier), creation (shmget),
attachment (ptyAttachSegment), removal of the just-created segment after
a failed attach, and endwin releasing the curses screen. -/
inductive ShmEvent where
  | removeOld : ShmEvent
  | create : ShmEvent
  | attach : ShmEvent
  | removeNew : ShmEvent
  | endwin : ShmEvent
deriving DecidableEq, Repr

/-- segmentSize as computed by allocateSegment of pty_screen.c:
sizeof(PtyCharacter) * COLS * LINES + sizeof(PtyHeader). -/
def segmentSizeFor (env : ShmEnv) : Nat :=
  env.sizeofCharacter * env.cols * env.lines + env.sizeofHeader

/-- allocateSegment of pty_screen.c.  A segment found under the key
derived from the terminal identifier (ptyGetSegmentIdentifier, modelled
from the spec: stale-resource recovery of section 7) is released first;
then shmget creates the new segment and ptyAttachSegment (modelled from
the spec: maps the region) attaches it; a failed attach releases the
segment just created.  Returns the attached raw segment (or none) and the
event log. -/
def allocateSegment (env : ShmEnv) : Option Segment × List ShmEvent :=
  let pre : List ShmEvent := if env.existingSegment then [ShmEvent.removeOld] else []
  if env.shmgetOk then
    if env.attachOk then
      (some { header := env.initialHeader, cells := env.initialCells },
       pre ++ [ShmEvent.create, ShmEvent.attach])
    else
      (none, pre ++ [ShmEvent.create, ShmEvent.removeNew])
  else
    (none, pre)

/-- initializeHeader of pty_screen.c: fill in the layout fields, record
the rendering-library cursor (saveCursorPosition), and initialize every
cell of the grid to the blank initializer. -/
def initHeader (sizeofHdr sizeofChar segSize lines cols termRow termColumn : Nat)
    (s : Segment) : Segment :=
  let hdr : PtyHeader :=
    { headerSize := sizeofHdr, segmentSize := segSize,
      characterSize := sizeofChar, charactersOffset := sizeofHdr,
      screenHeight := lines, screenWidth := cols,
      cursorRow := termRow, cursorColumn := termColumn }
  { header := hdr, cells := initChars s.cells 0 (ptyGetScreenEndIndex hdr) }

/-- ptyBeginScreen of pty_screen.c: if initscr succeeds, allocate and
attach the segment and initialize the header and grid; a failed
allocation ends the curses screen (endwin) and reports failure. -/
def ptyBeginScreen (env : ShmEnv) : Option Segment × List ShmEvent :=
  if env.initscrOk then
    match allocateSegment env with
    | (some raw, events) =>
        (some (initHeader env.sizeofHeader env.sizeofCharacter (segmentSizeFor env)
                env.lines env.cols env.termRow env.termColumn raw),
         events)
    | (none, events) => (none, events ++ [ShmEvent.endwin])
  else
    (none, [])

/-- The rendering-library state that ptyAddCharacter depends on:
dimensions, cursor, current drawing attributes, and the drawn screen
contents. -/
structure CursesState where
  lines : Nat
  cols : Nat
  cursorRow : Nat
  cursorColumn : Nat
  attrBlink : Bool
  attrBold : Bool
  attrUnderline : Bool
  attrReverse : Bool
  attrStandout : Bool
  attrDim : Bool
  screen : Nat → Nat → Wch

/-- curses move(): relocate the cursor of the library. -/
def cursesMove (t : CursesState) (row column : Nat) : CursesState :=
  { t with cursorRow := row, cursorColumn := column }

/-- curses addch(): draw the character at the cursor with the current
attributes and advance the cursor (to the start of the next row at the
right edge). -/
def cursesAddch (t : CursesState) (ch : Nat) : CursesState :=
  let w : Wch :=
    { ch := ch, attrBlink := t.attrBlink, attrBold := t.attrBold,
      attrUnderline := t.attrUnderline, attrReverse := t.attrReverse,
      attrStandout := t.attrStandout, attrDim := t.attrDim }
  let scr := fun r c =>
    if r = t.cursorRow ∧ c = t.cursorColumn then w else t.screen r c
  if t.cursorColumn + 1 < t.cols then
    { t with screen := scr, cursorColumn := t.cursorColumn + 1 }
  else
    { t with screen := scr, cursorRow := t.cursorRow + 1, cursorColumn := 0 }

/-- The combined state of the writer process: the rendering library it
drives and the mapped segment. -/
structure PtyState where
  term : CursesState
  seg : Segment

/-- ptySetCursorPosition of pty_screen.c over the combined state: move()
relocates the library cursor and the header records the coordinates. -/
def ptySetCursorPositionSt (st : PtyState) (row column : Nat) : PtyState :=
  { term := cursesMove st.term row column,
    seg := ptySetCursorPosition st.seg row column }

/-- setCharacter of pty_screen.c over the combined state: in_wch reads
the library screen at the (possibly temporarily relocated) library
cursor; the grid store matches the segment-level setCharacter with that
value. -/
def setCharacterSt (st : PtyState) (row column : Nat) : PtyState :=
  let oldRow := st.seg.header.cursorRow
  let oldColumn := st.seg.header.cursorColumn
  if row = oldRow ∧ column = oldColumn then
    let w := st.term.screen st.term.cursorRow st.term.cursorColumn
    { st with seg := setCharacter w st.seg row column }
  else
    let st1 := ptySetCursorPositionSt st row column
    let w := st1.term.screen st1.term.cursorRow st1.term.cursorColumn
    let st2 := ptySetCursorPositionSt st1 oldRow oldColumn
    { st2 with seg := setCharacter w st.seg row column }

/-- ptyAddCharacter of pty_screen.c over the combined state: remember the
header cursor, addch draws and advances the library cursor,
saveCursorPosition records the advanced cursor in the header, and the
cell at the remembered pre-advance position is sampled and stored. -/
def ptyAddCharacter (st : PtyState) (ch : Nat) : PtyState :=
  let row := st.seg.header.cursorRow
  let column := st.seg.header.cursorColumn
  let t1 := cursesAddch st.term ch
  let seg1 := saveCursorPosition st.seg t1.cursorRow t1.cursorColumn
  setCharacterSt { term := t1, seg := seg1 } row column

/-- One mirror operation invoked after a successful ptyBeginScreen.
Rendering-library samples appear as the Wch parameters; operations acting
only on the rendering library (refresh, cursor visibility, attribute and
color setters) are the libraryOnly constructor. -/
inductive MirrorOp where
  | setCursorPosition (row column : Nat) : MirrorOp
  | setCursorRow (row : Nat) : MirrorOp
  | setCursorColumn (column : Nat) : MirrorOp
  | setScrollRegion (top bottom : Nat) : MirrorOp
  | moveCursorUp (amount : Nat) : MirrorOp
  | moveCursorDown (amount : Nat) : MirrorOp
  | moveCursorLeft (amount : Nat) : MirrorOp
  | moveCursorRight (amount : Nat) : MirrorOp
  | insertLines (count : Nat) : MirrorOp
  | deleteLines (count : Nat) : MirrorOp
  | insertCharacters (w : Wch) (count : Nat) : MirrorOp
  | deleteCharacters (count : Nat) : MirrorOp
  | addCharacter (advRow advColumn : Nat) (w : Wch) : MirrorOp
  | clearToEndOfScreen (w : Wch) : MirrorOp
  | clearToEndOfLine (w : Wch) : MirrorOp
  | libraryOnly : MirrorOp
deriving Repr

/-- Apply one mirror operation to the writer state. -/
def applyOp (op : MirrorOp) (st : MirrorState) : MirrorState :=
  match op with
  | MirrorOp.setCursorPosition row column =>
      { st with seg := ptySetCursorPosition st.seg row column }
  | MirrorOp.setCursorRow row => ptySetCursorRow st row
  | MirrorOp.setCursorColumn column => ptySetCursorColumn st column
  | MirrorOp.setScrollRegion top bottom => ptySetScrollRegion st top bottom
  | MirrorOp.moveCursorUp amount => (ptyMoveCursorUp amount st).1
  | MirrorOp.moveCursorDown amount => (ptyMoveCursorDown amount st).1
  | MirrorOp.moveCursorLeft amount => ptyMoveCursorLeft amount st
  | MirrorOp.moveCursorRight amount => ptyMoveCursorRight amount st
  | MirrorOp.insertLines count => { st with seg := (ptyInsertLines st.seg count).1 }
  | MirrorOp.deleteLines count => { st with seg := (ptyDeleteLines st.seg count).1 }
  | MirrorOp.insertCharacters w count =>
      { st with seg := ptyInsertCharacters w count st.seg }
  | MirrorOp.deleteCharacters count =>
      { st with seg := (ptyDeleteCharacters st.seg count).1 }
  | MirrorOp.addCharacter advRow advColumn w =>
      { st with seg := ptyAddCharacterSeg advRow advColumn w st.seg }
  | MirrorOp.clearToEndOfScreen w => { st with seg := ptyClearToEndOfScreen w st.seg }
  | MirrorOp.clearToEndOfLine w => { st with seg := ptyClearToEndOfLine w st.seg }
  | MirrorOp.libraryOnly => st

/-- Apply a sequence of mirror operations in order. -/
def applyOps (ops : List MirrorOp) (st : MirrorState) : MirrorState :=
  ops.foldl (fun acc op => applyOp op acc) st

/-- The structural header fields no mirror operation may modify:
headerSize, segmentSize, characterSize, charactersOffset, screenHeight,
screenWidth. -/
def headerGeometry (h : PtyHeader) : Nat × Nat × Nat × Nat × Nat × Nat :=
  (h.headerSize, h.segmentSize, h.characterSize, h.charactersOffset,
   h.screenHeight, h.screenWidth)

/-- The header layout invariant of section 3 of the spec. -/
def headerInv (h : PtyHeader) : Prop :=
  h.segmentSize = h.headerSize + h.characterSize * h.screenHeight * h.screenWidth ∧
  h.charactersOffset = h.headerSize

/-- A concrete cell with the given code point and no attributes, for the
concrete instances below. -/
def cexCell (t : Nat) : PtyCharacter :=
  { text := t, blink := false, bold := false, underline := false,
    reverse := false, standout := false, dim := false }

/-- A concrete sampled complex character (code point 83, no attributes). -/
def wchSample : Wch :=
  { ch := 83, attrBlink := false, attrBold := false, attrUnderline := false,
    attrReverse := false, attrStandout := false, attrDim := false }

/-- A concrete 1 x 3 segment with the cursor at (0, 0) and pairwise
distinct cell contents. -/
def segIns : Segment :=
  { header := { headerSize := 40, segmentSize := 64, characterSize := 8,
                charactersOffset := 40, screenHeight := 1, screenWidth := 3,
                cursorRow := 0, cursorColumn := 0 },
    cells := fun i => cexCell (65 + i) }

/-- A concrete 2 x 3 segment with the cursor at (0, 1). -/
def segClr : Segment :=
  { header := { headerSize := 40, segmentSize := 88, characterSize := 8,
                charactersOffset := 40, screenHeight := 2, screenWidth := 3,
                cursorRow := 0, cursorColumn := 1 },
    cells := fun i => cexCell (65 + i) }

/-- A concrete all-steps-succeed acquisition environment for a 2 x 3
screen whose terminal cursor starts at (1, 2). -/
def envBlank : ShmEnv :=
  { initscrOk := true, existingSegment := true, shmgetOk := true, attachOk := true,
    lines := 2, cols := 3, termRow := 1, termColumn := 2,
    sizeofHeader := 40, sizeofCharacter := 8,
    initialHeader := segIns.header, initialCells := fun i => cexCell (97 + i) }

/-- The raw attached segment of envBlank, used as a fallback value. -/
def rawBlank : Segment :=
  { header := envBlank.initialHeader, cells := envBlank.initialCells }

/-- The segment produced by the successful ptyBeginScreen on envBlank. -/
def sInit : Segment := (ptyBeginScreen envBlank).1.getD rawBlank

/-- A concrete sequence of mirror operations exercising every kind of
grid edit. -/
def opsDemo : List MirrorOp :=
  [MirrorOp.addCharacter 1 3 wchSample, MirrorOp.insertCharacters wchSample 2,
   MirrorOp.moveCursorDown 1, MirrorOp.clearToEndOfLine wchSample,
   MirrorOp.insertLines 1, MirrorOp.setScrollRegion 0 1,
   MirrorOp.clearToEndOfScreen wchSample, MirrorOp.moveCursorUp 5,
   MirrorOp.deleteCharacters 2, MirrorOp.libraryOnly]

/-- A concrete mirror state with the cursor on row 2 inside the scroll
region [1, 3]. -/
def stMove : MirrorState :=
  { seg := { header := { segIns.header with cursorRow := 2 },
             cells := fun i => cexCell (65 + i) },
    scrollRegionTop := 1, scrollRegionBottom := 3 }

/-- A concrete 24 x 80 rendering-library state, cursor at (0, 0), no
attributes set. -/
def termA : CursesState :=
  { lines := 24, cols := 80, cursorRow := 0, cursorColumn := 0,
    attrBlink := false, attrBold := false, attrUnderline := false,
    attrReverse := false, attrStandout := false, attrDim := false,
    screen := fun _ _ => wchSample }

/-- A concrete combined state: the 24 x 80 library of termA mirrored by
an all-blank segment, both cursors at (0, 0). -/
def pstA : PtyState :=
  { term := termA,
    seg := { header := { headerSize := 40, segmentSize := 15400, characterSize := 8,
                         charactersOffset := 40, screenHeight := 24, screenWidth := 80,
                         cursorRow := 0, cursorColumn := 0 },
             cells := fun _ => blankCharacter } }

end Pty

namespace Pty

/-- The loop of the line and character insert/delete operators performs
exactly count primitive calls. -/
theorem callLoop_eq (n : Nat) : callLoop n = n := by
  induction n with
  | zero => rfl
  | succ k ih => simp [callLoop, ih]

/-- setCharacter restores the header it found, whichever branch the
temporary relocation takes. -/
theorem setCharacter_header (w : Wch) (s : Segment) (row column : Nat) :
    (setCharacter w s row column).header = s.header := by
  simp only [setCharacter, ptySetCursorPosition]
  split_ifs <;> rfl

/-- Unsigned 32-bit double subtraction reinterpreted as a signed int is
exact mathematical subtraction for small operands. -/
theorem toSigned32_sub_sub (a b c : Nat) (ha : a < 1073741824) (hb : b < 1073741824)
    (hc : c < 1073741824) :
    toSigned32 (uSub32 (uSub32 a b) c) = (a : Int) - b - c := by
  unfold toSigned32 uSub32 uintMod
  split_ifs <;> omega

/-- Unsigned 32-bit addition then subtraction reinterpreted as a signed
int is exact mathematical arithmetic for small operands. -/
theorem toSigned32_add_sub (a b c : Nat) (ha : a < 1073741824) (hb : b < 1073741824)
    (hc : c < 1073741824) :
    toSigned32 (uSub32 (uAdd32 a b) c) = (a : Int) + b - c := by
  unfold toSigned32 uSub32 uAdd32 uintMod
  split_ifs <;> omega

/-- Unsigned 32-bit subtraction agrees with Nat subtraction when it does
not borrow. -/
theorem uSub32_of_le (a b : Nat) (h : b ≤ a) (ha : a < 4294967296) :
    uSub32 a b = a - b := by
  unfold uSub32 uintMod
  omega

/-- Unsigned 32-bit addition agrees with Nat addition when it does not
wrap. -/
theorem uAdd32_small (a b : Nat) (h : a + b < 4294967296) : uAdd32 a b = a + b := by
  unfold uAdd32 uintMod
  omega

/-- Upward move crossing the top of the region: one scroll by the signed
delta, row clamped to the top, the row rewritten only on change. -/
theorem ptyMoveCursorUp_case_a (st : MirrorState) (amount : Nat)
    (hRow : st.seg.header.cursorRow < 1073741824)
    (hAmt : amount < 1073741824)
    (hTop : st.scrollRegionTop < 1073741824)
    (hin : isWithinScrollRegion st st.seg.header.cursorRow = true)
    (hlt : (st.seg.header.cursorRow : Int) - amount < st.scrollRegionTop) :
    (ptyMoveCursorUp amount st).2.1 =
        [(st.seg.header.cursorRow : Int) - amount - st.scrollRegionTop] ∧
    (ptyMoveCursorUp amount st).1.seg.header.cursorRow = st.scrollRegionTop ∧
    (ptyMoveCursorUp amount st).2.2 =
        (if st.scrollRegionTop = st.seg.header.cursorRow then []
         else [st.scrollRegionTop]) := by
  have hrw := toSigned32_sub_sub st.seg.header.cursorRow amount st.scrollRegionTop hRow hAmt hTop
  have hd : (st.seg.header.cursorRow : Int) - amount - st.scrollRegionTop < 0 := by omega
  simp only [ptyMoveCursorUp, hin, if_true, hrw]
  rw [if_pos hd]
  by_cases h : st.scrollRegionTop = st.seg.header.cursorRow
  · simp [h, ptySetCursorRow, ptySetCursorPosition]
  · simp [h, ptySetCursorRow, ptySetCursorPosition]

/-- Upward move staying inside the region: no scroll, candidate row used
unclamped, the row rewritten only on change. -/
theorem ptyMoveCursorUp_case_b (st : MirrorState) (amount : Nat)
    (hRow : st.seg.header.cursorRow < 1073741824)
    (hAmt : amount < 1073741824)
    (hTop : st.scrollRegionTop < 1073741824)
    (hin : isWithinScrollRegion st st.seg.header.cursorRow = true)
    (hge : (st.scrollRegionTop : Int) ≤ (st.seg.header.cursorRow : Int) - amount) :
    (ptyMoveCursorUp amount st).2.1 = [] ∧
    (ptyMoveCursorUp amount st).1.seg.header.cursorRow =
        st.seg.header.cursorRow - amount ∧
    (ptyMoveCursorUp amount st).2.2 =
        (if amount = 0 then [] else [st.seg.header.cursorRow - amount]) := by
  have hrw := toSigned32_sub_sub st.seg.header.cursorRow amount st.scrollRegionTop hRow hAmt hTop
  have hd : ¬((st.seg.header.cursorRow : Int) - amount - st.scrollRegionTop < 0) := by omega
  have hle : amount ≤ st.seg.header.cursorRow := by omega
  simp only [ptyMoveCursorUp, hin, if_true, hrw]
  rw [if_neg hd, uSub32_of_le _ _ hle (by omega)]
  by_cases h : amount = 0
  · subst h
    simp [ptySetCursorRow, ptySetCursorPosition]
  · have hne : st.seg.header.cursorRow - amount ≠ st.seg.header.cursorRow := by omega
    simp [hne, h, ptySetCursorRow, ptySetCursorPosition]

/-- Upward move with the current row outside the region: no scroll, the
unsigned candidate used unchanged. -/
theorem ptyMoveCursorUp_case_c (st : MirrorState) (amount : Nat)
    (hout : isWithinScrollRegion st st.seg.header.cursorRow = false) :
    (ptyMoveCursorUp amount st).2.1 = [] ∧
    (ptyMoveCursorUp amount st).1.seg.header.cursorRow =
        uSub32 st.seg.header.cursorRow amount ∧
    (ptyMoveCursorUp amount st).2.2 =
        (if uSub32 st.seg.header.cursorRow amount = st.seg.header.cursorRow then []
         else [uSub32 st.seg.header.cursorRow amount]) := by
  simp only [ptyMoveCursorUp, hout, Bool.false_eq_true, if_false]
  by_cases h : uSub32 st.seg.header.cursorRow amount = st.seg.header.cursorRow
  · simp [h, ptySetCursorRow, ptySetCursorPosition]
  · simp [h, ptySetCursorRow, ptySetCursorPosition]

/-- ptyMoveCursorUp never changes the column of the header. -/
theorem ptyMoveCursorUp_column (st : MirrorState) (amount : Nat) :
    (ptyMoveCursorUp amount st).1.seg.header.cursorColumn =
      st.seg.header.cursorColumn := by
  simp only [ptyMoveCursorUp, ptySetCursorRow, ptySetCursorPosition]
  split_ifs <;> rfl

/-- Downward move crossing the bottom of the region: one scroll by the
signed delta, row clamped to the bottom, the row rewritten only on
change. -/
theorem ptyMoveCursorDown_case_a (st : MirrorState) (amount : Nat)
    (hRow : st.seg.header.cursorRow < 1073741824)
    (hAmt : amount < 1073741824)
    (hBot : st.scrollRegionBottom < 1073741824)
    (hin : isWithinScrollRegion st st.seg.header.cursorRow = true)
    (hgt : (st.scrollRegionBottom : Int) < (st.seg.header.cursorRow : Int) + amount) :
    (ptyMoveCursorDown amount st).2.1 =
        [(st.seg.header.cursorRow : Int) + amount - st.scrollRegionBottom] ∧
    (ptyMoveCursorDown amount st).1.seg.header.cursorRow = st.scrollRegionBottom ∧
    (ptyMoveCursorDown amount st).2.2 =
        (if st.scrollRegionBottom = st.seg.header.cursorRow then []
         else [st.scrollRegionBottom]) := by
  have hrw := toSigned32_add_sub st.seg.header.cursorRow amount st.scrollRegionBottom hRow hAmt hBot
  have hd : (0 : Int) < (st.seg.header.cursorRow : Int) + amount - st.scrollRegionBottom := by
    omega
  simp only [ptyMoveCursorDown, hin, if_true, hrw]
  rw [if_pos hd]
  by_cases h : st.scrollRegionBottom = st.seg.header.cursorRow
  · simp [h, ptySetCursorRow, ptySetCursorPosition]
  · simp [h, ptySetCursorRow, ptySetCursorPosition]

/-- Downward move staying inside the region: no scroll, candidate row
used unclamped, the row rewritten only on change. -/
theorem ptyMoveCursorDown_case_b (st : MirrorState) (amount : Nat)
    (hRow : st.seg.header.cursorRow < 1073741824)
    (hAmt : amount < 1073741824)
    (hBot : st.scrollRegionBottom < 1073741824)
    (hin : isWithinScrollRegion st st.seg.header.cursorRow = true)
    (hle : (st.seg.header.cursorRow : Int) + amount ≤ (st.scrollRegionBottom : Int)) :
    (ptyMoveCursorDown amount st).2.1 = [] ∧
    (ptyMoveCursorDown amount st).1.seg.header.cursorRow =
        st.seg.header.cursorRow + amount ∧
    (ptyMoveCursorDown amount st).2.2 =
        (if amount = 0 then [] else [st.seg.header.cursorRow + amount]) := by
  have hrw := toSigned32_add_sub st.seg.header.cursorRow amount st.scrollRegionBottom hRow hAmt hBot
  have hd : ¬((0 : Int) < (st.seg.header.cursorRow : Int) + amount - st.scrollRegionBottom) := by
    omega
  simp only [ptyMoveCursorDown, hin, if_true, hrw]
  rw [if_neg hd, uAdd32_small _ _ (by omega)]
  by_cases h : amount = 0
  · subst h
    simp [ptySetCursorRow, ptySetCursorPosition]
  · have hne : st.seg.header.cursorRow + amount ≠ st.seg.header.cursorRow := by omega
    simp [hne, h, ptySetCursorRow, ptySetCursorPosition]

/-- Downward move with the current row outside the region: no scroll, the
unsigned candidate used unchanged. -/
theorem ptyMoveCursorDown_case_c (st : MirrorState) (amount : Nat)
    (hout : isWithinScrollRegion st st.seg.header.cursorRow = false) :
    (ptyMoveCursorDown amount st).2.1 = [] ∧
    (ptyMoveCursorDown amount st).1.seg.header.cursorRow =
        uAdd32 st.seg.header.cursorRow amount ∧
    (ptyMoveCursorDown amount st).2.2 =
        (if uAdd32 st.seg.header.cursorRow amount = st.seg.header.cursorRow then []
         else [uAdd32 st.seg.header.cursorRow amount]) := by
  simp only [ptyMoveCursorDown, hout, Bool.false_eq_true, if_false]
  by_cases h : uAdd32 st.seg.header.cursorRow amount = st.seg.header.cursorRow
  · simp [h, ptySetCursorRow, ptySetCursorPosition]
  · simp [h, ptySetCursorRow, ptySetCursorPosition]

/-- ptyMoveCursorDown never changes the column of the header. -/
theorem ptyMoveCursorDown_column (st : MirrorState) (amount : Nat) :
    (ptyMoveCursorDown amount st).1.seg.header.cursorColumn =
      st.seg.header.cursorColumn := by
  simp only [ptyMoveCursorDown, ptySetCursorRow, ptySetCursorPosition]
  split_ifs <;> rfl

/-- Every single mirror operation preserves the structural header
fields. -/
theorem applyOp_geometry (op : MirrorOp) (st : MirrorState) :
    headerGeometry ((applyOp op st).seg.header) = headerGeometry st.seg.header := by
  cases op with
  | setCursorPosition row column => rfl
  | setCursorRow row => rfl
  | setCursorColumn column => rfl
  | setScrollRegion top bottom => rfl
  | moveCursorUp amount =>
      simp only [applyOp, ptyMoveCursorUp, ptySetCursorRow, ptySetCursorPosition]
      split_ifs <;> rfl
  | moveCursorDown amount =>
      simp only [applyOp, ptyMoveCursorDown, ptySetCursorRow, ptySetCursorPosition]
      split_ifs <;> rfl
  | moveCursorLeft amount => rfl
  | moveCursorRight amount => rfl
  | insertLines count => rfl
  | deleteLines count => rfl
  | insertCharacters w count =>
      simp only [applyOp, ptyInsertCharacters, setCurrentCharacter]
      rw [setCharacter_header]
  | deleteCharacters count => rfl
  | addCharacter advRow advColumn w =>
      simp only [applyOp, ptyAddCharacterSeg, saveCursorPosition]
      rw [setCharacter_header]
      rfl
  | clearToEndOfScreen w =>
      simp only [applyOp, ptyClearToEndOfScreen, setCurrentCharacter]
      rw [setCharacter_header]
  | clearToEndOfLine w =>
      simp only [applyOp, ptyClearToEndOfLine, setCurrentCharacter]
      rw [setCharacter_header]
  | libraryOnly => rfl

/-- Every sequence of mirror operations preserves the structural header
fields. -/
theorem applyOps_geometry (ops : List MirrorOp) (st : MirrorState) :
    headerGeometry ((applyOps ops st).seg.header) = headerGeometry st.seg.header := by
  induction ops generalizing st with
  | nil => rfl
  | cons op rest ih =>
      have h1 : applyOps (op :: rest) st = applyOps rest (applyOp op st) := rfl
      rw [h1]
      exact (ih (applyOp op st)).trans (applyOp_geometry op st)

/-- Claim C1, counterexample to the claim as stated.  On the 1 x 3 grid
segIns with the cursor at column 0, inserting 1 character puts column 2
inside the region [max(c, w-n), w) = [2, 3) that the claim requires to
equal the sampled fill cell; the code instead stores there the surviving
cell shifted from column 1, which differs both from the cell stored at
the cursor (the sampled fill) and from the translated sample itself. -/
theorem ptyInsertCharacters_claim_cex :
    Nat.max segIns.header.cursorColumn (segIns.header.screenWidth - 1) ≤ 2 ∧
    2 < segIns.header.screenWidth ∧
    (ptyInsertCharacters wchSample 1 segIns).cells
        (ptyGetCharacterIndex segIns.header segIns.header.cursorRow 2) =
      segIns.cells (ptyGetCharacterIndex segIns.header segIns.header.cursorRow 1) ∧
    (ptyInsertCharacters wchSample 1 segIns).cells
        (ptyGetCharacterIndex segIns.header segIns.header.cursorRow 2) ≠
      (ptyInsertCharacters wchSample 1 segIns).cells
        (ptyGetCharacterIndex segIns.header segIns.header.cursorRow
          segIns.header.cursorColumn) ∧
    (ptyInsertCharacters wchSample 1 segIns).cells
        (ptyGetCharacterIndex segIns.header segIns.header.cursorRow 2) ≠
      wchCharacter wchSample := by
  decide

/-- Claim C1 (amended): ptyInsertCharacters(n) with the cursor at
(r, c), c < w: surviving cells [c, w-n) of row r appear shifted right by
n (stated for target cells other than the cursor cell, which is always
overwritten by the sample); the cursor cell and all cells of
[c, min(c+n, w)) equal the one cell sampled at the cursor after the
library insert; cells [0, c) of the row are unchanged; no cell outside
row r changes; the header is unchanged.  The shift is clamped at the end
of the row. -/
theorem ptyInsertCharacters_row_shift_fill (w : Wch) (n : Nat) (s : Segment)
    (hc : s.header.cursorColumn < s.header.screenWidth) :
    (∀ i, s.header.cursorColumn ≤ i → i + n < s.header.screenWidth →
       s.header.cursorColumn < i + n →
       (ptyInsertCharacters w n s).cells
           (s.header.cursorRow * s.header.screenWidth + (i + n)) =
         s.cells (s.header.cursorRow * s.header.screenWidth + i)) ∧
    ((ptyInsertCharacters w n s).cells
        (s.header.cursorRow * s.header.screenWidth + s.header.cursorColumn) =
      wchCharacter w) ∧
    (∀ i, s.header.cursorColumn ≤ i → i < s.header.cursorColumn + n →
       i < s.header.screenWidth →
       (ptyInsertCharacters w n s).cells
           (s.header.cursorRow * s.header.screenWidth + i) = wchCharacter w) ∧
    (∀ i, i < s.header.cursorColumn →
       (ptyInsertCharacters w n s).cells
           (s.header.cursorRow * s.header.screenWidth + i) =
         s.cells (s.header.cursorRow * s.header.screenWidth + i)) ∧
    (∀ j, j < s.header.cursorRow * s.header.screenWidth ∨
          s.header.cursorRow * s.header.screenWidth + s.header.screenWidth ≤ j →
       (ptyInsertCharacters w n s).cells j = s.cells j) ∧
    (ptyInsertCharacters w n s).header = s.header := by
  simp only [ptyInsertCharacters, setCurrentCharacter, setCharacter, propagateCells,
    setCells, moveCells, ptyGetCharacterIndex, ptyGetRowEnd, ptySetCursorPosition,
    and_self, if_true, if_pos]
  refine ⟨?_, ?_, ?_, ?_, ?_, trivial⟩ <;>
  · intros
    split_ifs <;> first | rfl | (congr 1; omega) | (exfalso; omega)

/-- Claim C1 witness: the amended statement evaluated on the concrete
1 x 3 segment segIns with one inserted character. -/
theorem ptyInsertCharacters_row_shift_fill_witness :
    (∀ i, segIns.header.cursorColumn ≤ i → i + 1 < segIns.header.screenWidth →
       segIns.header.cursorColumn < i + 1 →
       (ptyInsertCharacters wchSample 1 segIns).cells
           (segIns.header.cursorRow * segIns.header.screenWidth + (i + 1)) =
         segIns.cells (segIns.header.cursorRow * segIns.header.screenWidth + i)) ∧
    ((ptyInsertCharacters wchSample 1 segIns).cells
        (segIns.header.cursorRow * segIns.header.screenWidth +
          segIns.header.cursorColumn) = wchCharacter wchSample) ∧
    (∀ i, segIns.header.cursorColumn ≤ i → i < segIns.header.cursorColumn + 1 →
       i < segIns.header.screenWidth →
       (ptyInsertCharacters wchSample 1 segIns).cells
           (segIns.header.cursorRow * segIns.header.screenWidth + i) =
         wchCharacter wchSample) ∧
    (∀ i, i < segIns.header.cursorColumn →
       (ptyInsertCharacters wchSample 1 segIns).cells
           (segIns.header.cursorRow * segIns.header.screenWidth + i) =
         segIns.cells (segIns.header.cursorRow * segIns.header.screenWidth + i)) ∧
    (∀ j, j < segIns.header.cursorRow * segIns.header.screenWidth ∨
          segIns.header.cursorRow * segIns.header.screenWidth +
            segIns.header.screenWidth ≤ j →
       (ptyInsertCharacters wchSample 1 segIns).cells j = segIns.cells j) ∧
    (ptyInsertCharacters wchSample 1 segIns).header = segIns.header :=
  ptyInsertCharacters_row_shift_fill wchSample 1 segIns (by decide)

/-- Claim C2: after ptyClearToEndOfLine with the cursor at (r, c), c < w,
all cells [c, w) of row r equal the one cell sampled at the cursor,
cells [0, c) of row r are unchanged, every cell of every other row is
unchanged, and the header is unchanged. -/
theorem ptyClearToEndOfLine_fill_frame (w : Wch) (s : Segment)
    (hc : s.header.cursorColumn < s.header.screenWidth) :
    (∀ i, s.header.cursorColumn ≤ i → i < s.header.screenWidth →
      (ptyClearToEndOfLine w s).cells
          (s.header.cursorRow * s.header.screenWidth + i) = wchCharacter w) ∧
    (∀ i, i < s.header.cursorColumn →
      (ptyClearToEndOfLine w s).cells
          (s.header.cursorRow * s.header.screenWidth + i) =
        s.cells (s.header.cursorRow * s.header.screenWidth + i)) ∧
    (∀ j, j < s.header.cursorRow * s.header.screenWidth ∨
          s.header.cursorRow * s.header.screenWidth + s.header.screenWidth ≤ j →
      (ptyClearToEndOfLine w s).cells j = s.cells j) ∧
    (ptyClearToEndOfLine w s).header = s.header := by
  simp only [ptyClearToEndOfLine, setCurrentCharacter, setCharacter, propagateCells,
    setCells, ptyGetCharacterIndex, ptyGetRowEnd, ptySetCursorPosition, and_self,
    if_true, if_pos]
  refine ⟨?_, ?_, ?_, trivial⟩ <;>
  · intros
    split_ifs <;> first | rfl | (exfalso; omega)

/-- Claim C2 witness: the statement evaluated on the concrete 2 x 3
segment segClr with the cursor at (0, 1). -/
theorem ptyClearToEndOfLine_fill_frame_witness :
    (∀ i, segClr.header.cursorColumn ≤ i → i < segClr.header.screenWidth →
      (ptyClearToEndOfLine wchSample segClr).cells
          (segClr.header.cursorRow * segClr.header.screenWidth + i) =
        wchCharacter wchSample) ∧
    (∀ i, i < segClr.header.cursorColumn →
      (ptyClearToEndOfLine wchSample segClr).cells
          (segClr.header.cursorRow * segClr.header.screenWidth + i) =
        segClr.cells (segClr.header.cursorRow * segClr.header.screenWidth + i)) ∧
    (∀ j, j < segClr.header.cursorRow * segClr.header.screenWidth ∨
          segClr.header.cursorRow * segClr.header.screenWidth +
            segClr.header.screenWidth ≤ j →
      (ptyClearToEndOfLine wchSample segClr).cells j = segClr.cells j) ∧
    (ptyClearToEndOfLine wchSample segClr).header = segClr.header :=
  ptyClearToEndOfLine_fill_frame wchSample segClr (by decide)

/-- Claim C3: a relative vertical move whose candidate row stays inside
the scroll region, or whose current row lies outside the region, never
invokes the scroll primitive and uses the candidate row unclamped; a move
from inside the region whose candidate crosses the boundary in the
direction of motion invokes the scroll primitive exactly once with the
signed overshoot (magnitude candidate minus boundary) and clamps the row
to the boundary; the row of the header is rewritten only when the
resulting row differs from the old row; the column never changes. -/
theorem ptyMoveCursor_scroll_region (st : MirrorState) (amount : Nat)
    (hRow : st.seg.header.cursorRow < 1073741824)
    (hAmt : amount < 1073741824)
    (hTop : st.scrollRegionTop < 1073741824)
    (hBot : st.scrollRegionBottom < 1073741824) :
    (isWithinScrollRegion st st.seg.header.cursorRow = true →
      (st.seg.header.cursorRow : Int) - amount < st.scrollRegionTop →
      (ptyMoveCursorUp amount st).2.1 =
          [(st.seg.header.cursorRow : Int) - amount - st.scrollRegionTop] ∧
      (ptyMoveCursorUp amount st).1.seg.header.cursorRow = st.scrollRegionTop ∧
      (ptyMoveCursorUp amount st).2.2 =
          (if st.scrollRegionTop = st.seg.header.cursorRow then []
           else [st.scrollRegionTop])) ∧
    (isWithinScrollRegion st st.seg.header.cursorRow = true →
      (st.scrollRegionTop : Int) ≤ (st.seg.header.cursorRow : Int) - amount →
      (ptyMoveCursorUp amount st).2.1 = [] ∧
      (ptyMoveCursorUp amount st).1.seg.header.cursorRow =
          st.seg.header.cursorRow - amount ∧
      (ptyMoveCursorUp amount st).2.2 =
          (if amount = 0 then [] else [st.seg.header.cursorRow - amount])) ∧
    (isWithinScrollRegion st st.seg.header.cursorRow = false →
      (ptyMoveCursorUp amount st).2.1 = [] ∧
      (ptyMoveCursorUp amount st).1.seg.header.cursorRow =
          uSub32 st.seg.header.cursorRow amount ∧
      (ptyMoveCursorUp amount st).2.2 =
          (if uSub32 st.seg.header.cursorRow amount = st.seg.header.cursorRow then []
           else [uSub32 st.seg.header.cursorRow amount])) ∧
    (ptyMoveCursorUp amount st).1.seg.header.cursorColumn =
      st.seg.header.cursorColumn ∧
    (isWithinScrollRegion st st.seg.header.cursorRow = true →
      (st.scrollRegionBottom : Int) < (st.seg.header.cursorRow : Int) + amount →
      (ptyMoveCursorDown amount st).2.1 =
          [(st.seg.header.cursorRow : Int) + amount - st.scrollRegionBottom] ∧
      (ptyMoveCursorDown amount st).1.seg.header.cursorRow = st.scrollRegionBottom ∧
      (ptyMoveCursorDown amount st).2.2 =
          (if st.scrollRegionBottom = st.seg.header.cursorRow then []
           else [st.scrollRegionBottom])) ∧
    (isWithinScrollRegion st st.seg.header.cursorRow = true →
      (st.seg.header.cursorRow : Int) + amount ≤ (st.scrollRegionBottom : Int) →
      (ptyMoveCursorDown amount st).2.1 = [] ∧
      (ptyMoveCursorDown amount st).1.seg.header.cursorRow =
          st.seg.header.cursorRow + amount ∧
      (ptyMoveCursorDown amount st).2.2 =
          (if amount = 0 then [] else [st.seg.header.cursorRow + amount])) ∧
    (isWithinScrollRegion st st.seg.header.cursorRow = false →
      (ptyMoveCursorDown amount st).2.1 = [] ∧
      (ptyMoveCursorDown amount st).1.seg.header.cursorRow =
          uAdd32 st.seg.header.cursorRow amount ∧
      (ptyMoveCursorDown amount st).2.2 =
          (if uAdd32 st.seg.header.cursorRow amount = st.seg.header.cursorRow then []
           else [uAdd32 st.seg.header.cursorRow amount])) ∧
    (ptyMoveCursorDown amount st).1.seg.header.cursorColumn =
      st.seg.header.cursorColumn :=
  ⟨fun hin hlt => ptyMoveCursorUp_case_a st amount hRow hAmt hTop hin hlt,
   fun hin hge => ptyMoveCursorUp_case_b st amount hRow hAmt hTop hin hge,
   fun hout => ptyMoveCursorUp_case_c st amount hout,
   ptyMoveCursorUp_column st amount,
   fun hin hgt => ptyMoveCursorDown_case_a st amount hRow hAmt hBot hin hgt,
   fun hin hle => ptyMoveCursorDown_case_b st amount hRow hAmt hBot hin hle,
   fun hout => ptyMoveCursorDown_case_c st amount hout,
   ptyMoveCursorDown_column st amount⟩

/-- Claim C3 witness: on the concrete state stMove (row 2, region
[1, 3]), moving down by 4 crosses the bottom: exactly one scroll by the
signed overshoot, row clamped to the bottom, one row rewrite. -/
theorem ptyMoveCursor_scroll_region_witness :
    (ptyMoveCursorDown 4 stMove).2.1 =
        [(stMove.seg.header.cursorRow : Int) + 4 - stMove.scrollRegionBottom] ∧
    (ptyMoveCursorDown 4 stMove).1.seg.header.cursorRow = stMove.scrollRegionBottom ∧
    (ptyMoveCursorDown 4 stMove).2.2 =
        (if stMove.scrollRegionBottom = stMove.seg.header.cursorRow then []
         else [stMove.scrollRegionBottom]) :=
  (ptyMoveCursor_scroll_region stMove 4 (by decide) (by decide) (by decide)
      (by decide)).2.2.2.2.1 (by decide) (by decide)

/-- Claim C4: after ptyClearToEndOfScreen with the cursor at (r, c),
every cell from cell index r * w + c through the last cell of the grid in
row-major order equals the one cell sampled at the cursor, every cell
before that index is unchanged, and the header is unchanged. -/
theorem ptyClearToEndOfScreen_fill_frame (w : Wch) (s : Segment) (j : Nat) :
    (s.header.cursorRow * s.header.screenWidth + s.header.cursorColumn ≤ j →
     j < s.header.screenHeight * s.header.screenWidth →
     (ptyClearToEndOfScreen w s).cells j = wchCharacter w) ∧
    (j < s.header.cursorRow * s.header.screenWidth + s.header.cursorColumn →
     (ptyClearToEndOfScreen w s).cells j = s.cells j) ∧
    (ptyClearToEndOfScreen w s).header = s.header := by
  simp only [ptyClearToEndOfScreen, setCurrentCharacter, setCharacter, propagateCells,
    setCells, ptyGetCharacterIndex, ptyGetScreenEndIndex, ptySetCursorPosition,
    and_self, if_true, if_pos]
  refine ⟨?_, ?_, trivial⟩ <;>
  · intros
    split_ifs <;> first | rfl | (exfalso; omega)

/-- Claim C5: a successful ptyBeginScreen yields a segment in which every
grid cell equals the blank initializer (space, all six attribute booleans
unset) and the cursor of the header equals the rendering-library cursor
at that moment. -/
theorem ptyBeginScreen_blank_init (env : ShmEnv)
    (h1 : env.initscrOk = true) (h2 : env.shmgetOk = true) (h3 : env.attachOk = true) :
    ∃ s, (ptyBeginScreen env).1 = some s ∧
      s.header.cursorRow = env.termRow ∧ s.header.cursorColumn = env.termColumn ∧
      ∀ i, i < env.lines * env.cols → s.cells i = blankCharacter := by
  simp only [ptyBeginScreen, allocateSegment, h1, h2, h3, if_true]
  refine ⟨_, rfl, rfl, rfl, fun i hi => ?_⟩
  simp only [initHeader, initChars, setCells, ptyGetScreenEndIndex]
  rw [if_pos]
  exact ⟨Nat.zero_le i, hi⟩

/-- Claim C5 witness: the concrete all-steps-succeed environment envBlank
(2 x 3 screen, terminal cursor at (1, 2)). -/
theorem ptyBeginScreen_blank_init_witness :
    ∃ s, (ptyBeginScreen envBlank).1 = some s ∧
      s.header.cursorRow = envBlank.termRow ∧
      s.header.cursorColumn = envBlank.termColumn ∧
      ∀ i, i < envBlank.lines * envBlank.cols → s.cells i = blankCharacter :=
  ptyBeginScreen_blank_init envBlank rfl rfl rfl

/-- Claim C6: the segment produced by a successful ptyBeginScreen
satisfies the layout invariant (segmentSize equals headerSize plus
characterSize times height times width, and charactersOffset equals
headerSize), and every sequence of subsequent mirror operations leaves
all six structural header fields — hence the invariant — intact. -/
theorem header_invariant_preserved (env : ShmEnv) (top bottom : Nat)
    (ops : List MirrorOp) (s : Segment)
    (h : (ptyBeginScreen env).1 = some s) :
    headerInv s.header ∧
    headerGeometry ((applyOps ops
        { seg := s, scrollRegionTop := top, scrollRegionBottom := bottom }).seg.header) =
      headerGeometry s.header ∧
    headerInv ((applyOps ops
        { seg := s, scrollRegionTop := top, scrollRegionBottom := bottom }).seg.header) := by
  have hinv : headerInv s.header := by
    unfold ptyBeginScreen at h
    by_cases hi : env.initscrOk = true
    · rw [if_pos hi] at h
      rcases halloc : allocateSegment env with ⟨o, events⟩
      rw [halloc] at h
      cases o with
      | none => simp at h
      | some raw =>
          simp only [Option.some.injEq] at h
          subst h
          refine ⟨?_, rfl⟩
          simp only [initHeader, segmentSizeFor]
          ring
    · rw [if_neg hi] at h
      simp at h
  have hg := applyOps_geometry ops
    { seg := s, scrollRegionTop := top, scrollRegionBottom := bottom }
  refine ⟨hinv, hg, ?_⟩
  unfold headerGeometry at hg
  simp only [Prod.mk.injEq] at hg
  obtain ⟨e1, e2, e3, e4, e5, e6⟩ := hg
  unfold headerInv at hinv ⊢
  rw [e1, e2, e3, e4, e5, e6]
  exact hinv

/-- Claim C6 witness: the invariant holds for the concrete initialized
segment sInit and survives the concrete operation sequence opsDemo. -/
theorem header_invariant_preserved_witness :
    headerInv sInit.header ∧
    headerGeometry ((applyOps opsDemo
        { seg := sInit, scrollRegionTop := 0, scrollRegionBottom := 1 }).seg.header) =
      headerGeometry sInit.header ∧
    headerInv ((applyOps opsDemo
        { seg := sInit, scrollRegionTop := 0, scrollRegionBottom := 1 }).seg.header) :=
  header_invariant_preserved envBlank 0 1 opsDemo sInit rfl

/-- Claim C7: ptyInsertLines, ptyDeleteLines and ptyDeleteCharacters
leave the segment — every grid cell and every header field — exactly as
it was, and invoke their rendering-library primitive exactly count
times. -/
theorem lineCharOps_leave_segment (s : Segment) (count : Nat) :
    ptyInsertLines s count = (s, count) ∧
    ptyDeleteLines s count = (s, count) ∧
    ptyDeleteCharacters s count = (s, count) := by
  simp [ptyInsertLines, ptyDeleteLines, ptyDeleteCharacters, callLoop_eq]

/-- Claim C8: ptyBeginScreen succeeds exactly when initscr, segment
creation and attachment all succeed; a pre-existing segment under the
derived key is removed first (before any creation); a failed attach
releases the segment just created and ends the curses screen; a failed
creation ends the curses screen; on every failure no segment is returned,
so no partially initialized mirror is exposed. -/
theorem ptyBeginScreen_acquisition (env : ShmEnv) :
    ((ptyBeginScreen env).1.isSome = (env.initscrOk && env.shmgetOk && env.attachOk)) ∧
    (env.initscrOk = true → env.existingSegment = true →
      (ptyBeginScreen env).2.head? = some ShmEvent.removeOld) ∧
    (env.initscrOk = true → env.shmgetOk = true →
      ShmEvent.create ∈ (ptyBeginScreen env).2) ∧
    (env.initscrOk = true → env.shmgetOk = true → env.attachOk = false →
      ShmEvent.removeNew ∈ (ptyBeginScreen env).2 ∧
      ShmEvent.endwin ∈ (ptyBeginScreen env).2) ∧
    (env.initscrOk = true → env.shmgetOk = false →
      ShmEvent.endwin ∈ (ptyBeginScreen env).2) := by
  obtain ⟨i, ex, g, a, lines, cols, tr, tcol, sh, sc, ih, ic⟩ := env
  cases i <;> cases ex <;> cases g <;> cases a <;>
    simp [ptyBeginScreen, allocateSegment]

/-- Claim C9: ptyAddCharacter stores, at the cursor position held before
the library advances the cursor, the cell the library drew there (the
character with the current drawing attributes), and then records the
advanced cursor in the header; all other grid cells are unchanged. -/
theorem ptyAddCharacter_samples_preadvance (st : PtyState) (ch : Nat)
    (hr : st.term.cursorRow = st.seg.header.cursorRow)
    (hcl : st.term.cursorColumn = st.seg.header.cursorColumn)
    (hc : st.seg.header.cursorColumn + 1 < st.term.cols) :
    (ptyAddCharacter st ch).seg.header.cursorRow = st.seg.header.cursorRow ∧
    (ptyAddCharacter st ch).seg.header.cursorColumn =
        st.seg.header.cursorColumn + 1 ∧
    (ptyAddCharacter st ch).seg.cells
        (ptyGetCharacterIndex st.seg.header st.seg.header.cursorRow
          st.seg.header.cursorColumn) =
      { text := ch, blink := st.term.attrBlink, bold := st.term.attrBold,
        underline := st.term.attrUnderline, reverse := st.term.attrReverse,
        standout := st.term.attrStandout, dim := st.term.attrDim } ∧
    (∀ i, i ≠ ptyGetCharacterIndex st.seg.header st.seg.header.cursorRow
        st.seg.header.cursorColumn →
      (ptyAddCharacter st ch).seg.cells i = st.seg.cells i) := by
  have hne : ¬(st.seg.header.cursorColumn =
      st.seg.header.cursorColumn + 1) := by omega
  simp only [ptyAddCharacter, cursesAddch, setCharacterSt, ptySetCursorPositionSt,
    cursesMove, saveCursorPosition, setCharacter, ptySetCursorPosition,
    ptyGetCharacterIndex, wchCharacter, hr, hcl]
  rw [if_pos hc]
  simp only [hne, and_false, if_false, and_true, eq_self_iff_true, if_pos, and_self,
    if_true]
  refine ⟨trivial, trivial, ?_, fun i hi => ?_⟩
  · simp
  · simp [hi]

/-- Claim C9 witness: the end-to-end scenario of section 8 — on the
24 x 80 state pstA, writing the character 65 at (0, 0) with no attributes
makes cell (0, 0) equal 65 with all attribute booleans unset and the
header cursor equal (0, 1). -/
theorem ptyAddCharacter_samples_preadvance_witness :
    (ptyAddCharacter pstA 65).seg.header.cursorRow = pstA.seg.header.cursorRow ∧
    (ptyAddCharacter pstA 65).seg.header.cursorColumn =
        pstA.seg.header.cursorColumn + 1 ∧
    (ptyAddCharacter pstA 65).seg.cells
        (ptyGetCharacterIndex pstA.seg.header pstA.seg.header.cursorRow
          pstA.seg.header.cursorColumn) =
      { text := 65, blink := pstA.term.attrBlink, bold := pstA.term.attrBold,
        underline := pstA.term.attrUnderline, reverse := pstA.term.attrReverse,
        standout := pstA.term.attrStandout, dim := pstA.term.attrDim } ∧
    (∀ i, i ≠ ptyGetCharacterIndex pstA.seg.header pstA.seg.header.cursorRow
        pstA.seg.header.cursorColumn →
      (ptyAddCharacter pstA 65).seg.cells i = pstA.seg.cells i) :=
  ptyAddCharacter_samples_preadvance pstA 65 rfl rfl (by decide)

/-- Claim C10: sampling a cell through setCharacter leaves the whole
header — in particular cursorRow and cursorColumn — equal to its value on
entry (the temporary relocation is always undone before return), stores
the translated sample in the one grid cell at (row, column), and changes
no other cell. -/
theorem setCharacter_restores_cursor (w : Wch) (s : Segment) (row column : Nat) :
    (setCharacter w s row column).header = s.header ∧
    (setCharacter w s row column).cells (ptyGetCharacterIndex s.header row column) =
      wchCharacter w ∧
    (∀ i, i ≠ ptyGetCharacterIndex s.header row column →
      (setCharacter w s row column).cells i = s.cells i) := by
  simp only [setCharacter, ptySetCursorPosition, ptyGetCharacterIndex]
  by_cases h : row = s.header.cursorRow ∧ column = s.header.cursorColumn
  · obtain ⟨h1, h2⟩ := h
    subst h1
    subst h2
    exact ⟨by simp, by simp, fun i hi => by simp [hi]⟩
  · refine ⟨by simp [h], by simp [h], fun i hi => by simp [h, hi]⟩

end Pty
